import Mathlib

/-!
Shallow embedding of the maker-wealth aggregation module
(`src/backend/src/service/maker_wealth.ts` of OrbiterModule) and proofs of
its specified properties.

External collaborators (the maker registry `getMakerList`, the chain-family
table `CHAIN_INDEX`, the per-chain network adapters, node endpoints from
`makerConfig`) are passed in as explicit parameters, so the functions below
are the pure content of the TypeScript functions of the same names.
-/

set_option autoImplicit false

namespace MakerWealthSpec

/-- One row of the maker registry (`getMakerList`): maker address, the two
chain legs (id and name), the two token addresses, and the shared token
display name and decimal precision used for both legs. -/
structure MakerPairEntry where
  makerAddress : String
  c1ID : Nat
  c1Name : String
  c2ID : Nat
  c2Name : String
  t1Address : String
  t2Address : String
  tName : String
  precision : Nat
  deriving DecidableEq, Repr

/-- One balance slot of a `WealthsChain` (the anonymous element type of
`WealthsChain.balances` in the source).  `value` is `none` exactly when the
TS field holds `undefined` (balance could not be fetched). -/
structure BalanceSlot where
  tokenAddress : String
  tokenName : String
  value : Option String
  decimals : Nat
  deriving DecidableEq, Repr

/-- The `WealthsChain` record of the source (one ChainBalanceRequest). -/
structure WealthsChain where
  chainId : Nat
  chainName : String
  makerAddress : String
  balances : List BalanceSlot
  deriving DecidableEq, Repr

/-- Modelled from the spec: the error code
`ServiceErrorCodes['arguments invalid']` lives in
`src/backend/src/error/service`, which is not under `src/`. -/
inductive ServiceErrorCode where
  | argumentsInvalid
  deriving DecidableEq, Repr

/-- Modelled from the spec: `ServiceError` (message plus code) from
`src/backend/src/error/service`, which is not under `src/`. -/
structure ServiceError where
  message : String
  code : ServiceErrorCode
  deriving DecidableEq, Repr

/-- Modelled from the spec: `isEthTokenAddress` from `src/backend/src/util`
(not under `src/`) recognizes the native-asset zero/sentinel token address:
a `0x` prefix (case-insensitive `x`) followed by one or more `0` digits and
nothing else. -/
def isEthTokenAddress (tokenAddress : String) : Bool :=
  match tokenAddress.data with
  | '0' :: x :: rest =>
    (x == 'x' || x == 'X') && !rest.isEmpty && rest.all (fun c => c == '0')
  | _ => false

/-- One entry of the `resp.tokenBalances` array returned by the alchemy
`getTokenBalances` call in the default branch of `getTokenBalance`. -/
structure TokenBalanceItem where
  error : Bool
  tokenBalance : String
  deriving DecidableEq, Repr

/-- The external world seen by `getTokenBalance`: the chain-family table
`CHAIN_INDEX`, the `makerConfig[chainName]?.httpEndPoint` lookup, the two
generic EVM node calls, and the six non-generic chain-family adapters as
opaque capabilities.  A `.error` result models a thrown exception. -/
structure Env where
  chainIndex : Nat → Option String
  httpEndPoint : String → Option String
  ethGetBalance : String → String → Except String String
  getTokenBalances : String → String → List String → Except String (List TokenBalanceItem)
  zksync : String → Nat → String → Except String (Option String)
  loopring : String → Nat → Except String (Option String)
  starknet : String → String → Nat → Except String (Option String)
  immutablex : String → Nat → String → Except String (Option String)
  metis : String → String → String → Except String (Option String)
  dydx : String → Nat → Except String (Option String)

/-- The scan over `resp.tokenBalances` in the default branch of
`getTokenBalance`: items with an error are skipped, the first item without
an error provides the value, and the loop stops there. -/
def scanTokenBalances : List TokenBalanceItem → Option String
  | [] => none
  | item :: rest => if item.error then scanTokenBalances rest else some item.tokenBalance

/-- The dispatch body of `getTokenBalance` (the `switch` over
`CHAIN_INDEX[chainId]`).  The six non-generic chain families are opaque
external adapters; the generic EVM default branch is modelled concretely:
no configured endpoint resolves to no value without calling anything,
an empty or sentinel token address takes the native `eth.getBalance` call,
any other token address takes the `getTokenBalances` call with the single
address `[tokenAddress]` in the query set. -/
def getTokenBalanceBody (env : Env) (makerAddress : String) (chainId : Nat)
    (chainName tokenAddress tokenName : String) : Except String (Option String) :=
  let family := env.chainIndex chainId
  if family == some "zksync" then env.zksync makerAddress chainId tokenName
  else if family == some "loopring" then env.loopring makerAddress chainId
  else if family == some "starknet" then env.starknet makerAddress tokenAddress chainId
  else if family == some "immutablex" then env.immutablex makerAddress chainId tokenName
  else if family == some "metis" then env.metis makerAddress chainName tokenAddress
  else if family == some "dydx" then env.dydx makerAddress chainId
  else
    match env.httpEndPoint chainName with
    | none => Except.ok none
    | some url =>
      if tokenAddress == "" || isEthTokenAddress tokenAddress then
        match env.ethGetBalance url makerAddress with
        | Except.ok v => Except.ok (some v)
        | Except.error e => Except.error e
      else
        match env.getTokenBalances url makerAddress [tokenAddress] with
        | Except.ok items => Except.ok (scanTokenBalances items)
        | Except.error e => Except.error e

/-- `getTokenBalance`: the `try/catch` around the dispatch body — a fault is
logged and the function falls through to return `undefined` (`none`). -/
def getTokenBalance (env : Env) (makerAddress : String) (chainId : Nat)
    (chainName tokenAddress tokenName : String) : Option String :=
  match getTokenBalanceBody env makerAddress chainId chainName tokenAddress tokenName with
  | Except.ok v => v
  | Except.error _ => none

/-- `pushToChainBalances`: find-or-push a slot keyed by token address
(first writer wins); a new slot starts with `value = some ""`
(TS `value: ''`). -/
def pushToChainBalances (balances : List BalanceSlot)
    (tokenAddress tokenName : String) (decimals : Nat) : List BalanceSlot :=
  if balances.any (fun item => item.tokenAddress == tokenAddress) then balances
  else
    balances ++
      [{ tokenAddress := tokenAddress, tokenName := tokenName,
         value := some "", decimals := decimals }]

/-- `pushToChains`: find-or-push a chain keyed by chain id; a new chain
starts with no balances. -/
def pushToChains (wealthsChains : List WealthsChain) (makerAddress : String)
    (chainId : Nat) (chainName : String) : List WealthsChain :=
  if wealthsChains.any (fun item => item.chainId == chainId) then wealthsChains
  else
    wealthsChains ++
      [{ chainId := chainId, chainName := chainName,
         makerAddress := makerAddress, balances := [] }]

/-- Apply `f` to the balances of the first chain with the given id — the TS
code mutates in place the chain object that `pushToChains` returned. -/
def updateChainBalances :
    List WealthsChain → Nat → (List BalanceSlot → List BalanceSlot) → List WealthsChain
  | [], _, _ => []
  | c :: rest, chainId, f =>
    if c.chainId == chainId then { c with balances := f c.balances } :: rest
    else c :: updateChainBalances rest chainId f

/-- One leg of a registry row:
`pushToChainBalances(pushToChains(makerAddress, chainId, chainName), ...)`. -/
def addLeg (wealthsChains : List WealthsChain) (makerAddress : String) (chainId : Nat)
    (chainName tokenAddress tokenName : String) (decimals : Nat) : List WealthsChain :=
  updateChainBalances (pushToChains wealthsChains makerAddress chainId chainName) chainId
    (fun bs => pushToChainBalances bs tokenAddress tokenName decimals)

/-- The registry scan of `getWealthsChains`: rows of other makers are
skipped; each matching row contributes its two legs in order. -/
def scanMakerList (makerList : List MakerPairEntry) (makerAddress : String) :
    List WealthsChain :=
  makerList.foldl
    (fun wcs item =>
      if item.makerAddress != makerAddress then wcs
      else
        addLeg
          (addLeg wcs item.makerAddress item.c1ID item.c1Name
            item.t1Address item.tName item.precision)
          item.makerAddress item.c2ID item.c2Name
          item.t2Address item.tName item.precision)
    []

/-- A slot the native-asset post-pass recognizes (`!item2.tokenAddress ||
isEthTokenAddress(item2.tokenAddress)`): empty token address or the
zero/sentinel address. -/
def isNativeSlot (b : BalanceSlot) : Bool :=
  b.tokenAddress == "" || isEthTokenAddress b.tokenAddress

/-- Clear the token address of the first native-like slot (the `find`
followed by the `ethBalancesItem.tokenAddress = ''` mutation). -/
def canonFirstNative : List BalanceSlot → List BalanceSlot
  | [] => []
  | b :: rest =>
    if isNativeSlot b then { b with tokenAddress := "" } :: rest
    else b :: canonFirstNative rest

/-- The per-chain native-asset post-pass of `getWealthsChains`: canonicalize
an existing native-like slot, else unshift a synthesized native slot
(`MATIC` for the polygon family, `ETH` otherwise, 18 decimals). -/
def postPassChain (chainIndex : Nat → Option String) (c : WealthsChain) : WealthsChain :=
  if c.balances.any isNativeSlot then
    { c with balances := canonFirstNative c.balances }
  else
    { c with balances :=
        { tokenAddress := "",
          tokenName := if chainIndex c.chainId == some "polygon" then "MATIC" else "ETH",
          value := some "", decimals := 18 } :: c.balances }

/-- `getWealthsChains`: reject an empty maker address before touching the
registry, then the registry scan followed by the native-asset post-pass. -/
def getWealthsChains (chainIndex : Nat → Option String) (makerList : List MakerPairEntry)
    (makerAddress : String) : Except ServiceError (List WealthsChain) :=
  if makerAddress == "" then
    Except.error
      { message := "Sorry, params makerAddress miss",
        code := ServiceErrorCode.argumentsInvalid }
  else
    Except.ok ((scanMakerList makerList makerAddress).map (postPassChain chainIndex))

/-- Value of a least-significant-digit-first base-10 digit list. -/
def ofDigitsLSB : List Nat → Nat
  | [] => 0
  | d :: rest => d + 10 * ofDigitsLSB rest

/-- The `d` base-10 digits of `m` (most significant first, fixed width `d`,
zero padded on the left). -/
def fracDigitsOf : Nat → Nat → List Nat
  | 0, _ => []
  | Nat.succ d, m => fracDigitsOf d (m / 10) ++ [m % 10]

/-- Drop trailing zero digits. -/
def stripTrailingZeros (l : List Nat) : List Nat :=
  (l.reverse.dropWhile (fun d => d == 0)).reverse

/-- The fraction digits of `n / 10 ^ d`: the width-`d` digit expansion of
`n % 10 ^ d` with trailing zeros removed. -/
def fracPartDigits (n d : Nat) : List Nat :=
  stripTrailingZeros (fracDigitsOf d (n % 10 ^ d))

/-- Modelled collaborator (the bignumber.js library, an external
dependency): render `n / 10 ^ d` exactly as a plain decimal string with no
trailing fraction zeros.  Exponential rendering of extreme magnitudes is
outside the model. -/
def renderScaled (n d : Nat) : String :=
  let ip := n / 10 ^ d
  let fd := fracPartDigits n d
  if fd.isEmpty then toString ip
  else toString ip ++ "." ++ String.mk (fd.map Nat.digitChar)

/-- Left-to-right accumulation of a base-10 digit run. -/
def parseDecAux : List Char → Nat → Option Nat
  | [], acc => some acc
  | c :: rest, acc =>
    if c.isDigit then parseDecAux rest (acc * 10 + (c.toNat - 48)) else none

/-- Parse a nonempty all-digit character run as a `Nat` (the semantics of
`String.toNat?`). -/
def parseDecDigits : List Char → Option Nat
  | [] => none
  | l => parseDecAux l 0

/-- Modelled collaborator (bignumber.js):
`new BigNumber(value).dividedBy(10 ** decimals).toString()` for integer
decimal `value` strings, optionally signed; other input shapes are out of
the model and map to `"NaN"`, the sign of zero is normalized to `"0"`, and
the float divisor `10 ** decimals` is taken exact (true for the IEEE-754
doubles up to `decimals = 22`; registry precisions are at most 18). -/
def bigDiv (value : String) (decimals : Nat) : String :=
  match parseDecDigits value.data with
  | some n => renderScaled n decimals
  | none =>
    match value.data with
    | '-' :: rest =>
      match parseDecDigits rest with
      | some n => if n == 0 then "0" else "-" ++ renderScaled n decimals
      | none => "NaN"
    | _ => "NaN"

/-- The per-slot value update of `getWealths`: the JS truthiness guard
`if (value)` (false for `undefined` and for the empty string) followed by
the BigNumber division by `10 ** decimals`, then `item2.value = value`. -/
def normalizeValue (value : Option String) (decimals : Nat) : Option String :=
  match value with
  | none => none
  | some v => if v == "" then some "" else some (bigDiv v decimals)

/-- The per-slot task body of `getWealths`. -/
def fetchSlot (env : Env) (c : WealthsChain) (b : BalanceSlot) : BalanceSlot :=
  let raw := getTokenBalance env c.makerAddress c.chainId c.chainName b.tokenAddress b.tokenName
  { b with value := normalizeValue raw b.decimals }

/-- All the per-slot tasks of one chain (each task owns a distinct slot, so
the parallel fan-out joins to this per-slot map). -/
def fetchChain (env : Env) (c : WealthsChain) : WealthsChain :=
  { c with balances := c.balances.map (fetchSlot env c) }

/-- `getWealths`: shape via `getWealthsChains`, then fill every slot value
by its own fetch and join. -/
def getWealths (env : Env) (makerList : List MakerPairEntry) (makerAddress : String) :
    Except ServiceError (List WealthsChain) := do
  let wealthsChains ← getWealthsChains env.chainIndex makerList makerAddress
  return wealthsChains.map (fetchChain env)

/-- One row handed to `repositoryMakerWealth().insert` (the `MakerWealth`
model), fields in the order of the insert call. -/
structure MakerWealth where
  makerAddress : String
  tokenAddress : String
  chainId : Nat
  balance : Option String
  decimals : Nat
  deriving DecidableEq, Repr

/-- `saveWealths`: the ordered sequence of repository `insert` calls issued
by the two nested sequential loops, one call per slot. -/
def saveWealths (wealths : List WealthsChain) : List MakerWealth :=
  wealths.foldl
    (fun acc item1 =>
      acc ++
        item1.balances.map (fun item2 =>
          { makerAddress := item1.makerAddress, tokenAddress := item2.tokenAddress,
            chainId := item1.chainId, balance := item2.value,
            decimals := item2.decimals }))
    []

/-- A trivial external world used to instantiate concrete scenarios. -/
def envTrivial : Env :=
  { chainIndex := fun _ => none, httpEndPoint := fun _ => none,
    ethGetBalance := fun _ _ => Except.error "e",
    getTokenBalances := fun _ _ _ => Except.error "e",
    zksync := fun _ _ _ => Except.error "e", loopring := fun _ _ => Except.error "e",
    starknet := fun _ _ _ => Except.error "e", immutablex := fun _ _ _ => Except.error "e",
    metis := fun _ _ _ => Except.error "e", dydx := fun _ _ => Except.error "e" }

/-- A starknet-family chain 2 beside a generic chain 1, all calls healthy. -/
def envStarkOk : Env :=
  { envTrivial with
    chainIndex := fun n => if n == 2 then some "starknet" else none,
    starknet := fun _ _ _ => Except.ok (some "1") }

/-- Same world, except the starknet adapter faults exactly on the key
(chain 2, token `0xT`). -/
def envStarkFault : Env :=
  { envStarkOk with
    starknet := fun _ t c =>
      if c == 2 && t == "0xT" then Except.error "boom" else Except.ok (some "1") }

/-! ## Helper lemmas -/

/-- Inverting a successful `getWealthsChains` run: the maker address was
nonempty and the result is the post-passed registry scan. -/
theorem getWealthsChains_ok_inv (chainIndex : Nat → Option String)
    (makerList : List MakerPairEntry) (makerAddress : String) (wcs : List WealthsChain)
    (h : getWealthsChains chainIndex makerList makerAddress = Except.ok wcs) :
    makerAddress ≠ "" ∧ wcs = (scanMakerList makerList makerAddress).map (postPassChain chainIndex) := by
  unfold getWealthsChains at h
  split at h
  · exact absurd h (by simp)
  · rename_i hne
    refine ⟨by simpa using hne, ?_⟩
    exact (Except.ok.injEq _ _).mp h |>.symm

/-- `canonFirstNative` on a list with a native-like slot: the list splits at
its first native-like slot, whose token address alone is cleared. -/
theorem canonFirstNative_split (bs : List BalanceSlot) (h : bs.any isNativeSlot = true) :
    ∃ l₁ b l₂, bs = l₁ ++ b :: l₂ ∧ (∀ x ∈ l₁, isNativeSlot x = false) ∧
      isNativeSlot b = true ∧
      canonFirstNative bs = l₁ ++ ({ b with tokenAddress := "" } :: l₂) := by
  induction bs with
  | nil => simp at h
  | cons b rest ih =>
    cases hb : isNativeSlot b with
    | true =>
      refine ⟨[], b, rest, rfl, by simp, hb, ?_⟩
      simp [canonFirstNative, hb]
    | false =>
      have h' : rest.any isNativeSlot = true := by
        simpa [List.any_cons, hb] using h
      obtain ⟨l₁, x, l₂, he, hl₁, hx, hc⟩ := ih h'
      refine ⟨b :: l₁, x, l₂, by simp [he], ?_, hx, ?_⟩
      · intro y hy
        rcases List.mem_cons.mp hy with hy | hy
        · simpa [hy] using hb
        · exact hl₁ y hy
      · simp [canonFirstNative, hb, hc]

/-- A slot that is not native-like has a nonempty token address. -/
theorem tokenAddress_ne_empty_of_not_native (b : BalanceSlot) (h : isNativeSlot b = false) :
    (b.tokenAddress == "") = false := by
  unfold isNativeSlot at h
  exact (Bool.or_eq_false_iff.mp h).1

/-- Slots produced by `pushToChainBalances` start with value `some ""`. -/
theorem pushToChainBalances_values (bs : List BalanceSlot) (ta tn : String) (d : Nat)
    (h : ∀ b ∈ bs, b.value = some "") :
    ∀ b ∈ pushToChainBalances bs ta tn d, b.value = some "" := by
  unfold pushToChainBalances
  split
  · exact h
  · intro b hb
    rcases List.mem_append.mp hb with hb | hb
    · exact h b hb
    · simp only [List.mem_singleton] at hb
      simp [hb]

/-- `updateChainBalances` preserves the all-values-initialized invariant
when the balance update does. -/
theorem updateChainBalances_values (wcs : List WealthsChain) (cid : Nat)
    (f : List BalanceSlot → List BalanceSlot)
    (h : ∀ c ∈ wcs, ∀ b ∈ c.balances, b.value = some "")
    (hf : ∀ bs, (∀ b ∈ bs, b.value = some "") → ∀ b ∈ f bs, b.value = some "") :
    ∀ c ∈ updateChainBalances wcs cid f, ∀ b ∈ c.balances, b.value = some "" := by
  induction wcs with
  | nil => intro c hc; simp [updateChainBalances] at hc
  | cons c₀ rest ih =>
    intro c hc
    unfold updateChainBalances at hc
    split at hc
    · rcases List.mem_cons.mp hc with hc | hc
      · subst hc
        exact hf c₀.balances (h c₀ (List.mem_cons_self _ _))
      · exact h c (List.mem_cons_of_mem _ hc)
    · rcases List.mem_cons.mp hc with hc | hc
      · subst hc
        exact h c (List.mem_cons_self _ _)
      · exact ih (fun x hx => h x (List.mem_cons_of_mem _ hx)) c hc

/-- `pushToChains` preserves the all-values-initialized invariant. -/
theorem pushToChains_values (wcs : List WealthsChain) (ma : String) (cid : Nat) (cn : String)
    (h : ∀ c ∈ wcs, ∀ b ∈ c.balances, b.value = some "") :
    ∀ c ∈ pushToChains wcs ma cid cn, ∀ b ∈ c.balances, b.value = some "" := by
  unfold pushToChains
  split
  · exact h
  · intro c hc
    rcases List.mem_append.mp hc with hc | hc
    · exact h c hc
    · simp only [List.mem_singleton] at hc
      subst hc
      intro b hb
      simp at hb

/-- `addLeg` preserves the all-values-initialized invariant. -/
theorem addLeg_values (wcs : List WealthsChain) (ma : String) (cid : Nat)
    (cn ta tn : String) (d : Nat)
    (h : ∀ c ∈ wcs, ∀ b ∈ c.balances, b.value = some "") :
    ∀ c ∈ addLeg wcs ma cid cn ta tn d, ∀ b ∈ c.balances, b.value = some "" := by
  unfold addLeg
  exact updateChainBalances_values _ _ _ (pushToChains_values _ _ _ _ h)
    (fun bs hbs => pushToChainBalances_values bs ta tn d hbs)

/-- Every slot in the registry scan starts with value `some ""`. -/
theorem scanMakerList_values (ml : List MakerPairEntry) (ma : String) :
    ∀ c ∈ scanMakerList ml ma, ∀ b ∈ c.balances, b.value = some "" := by
  unfold scanMakerList
  suffices haux : ∀ (l : List MakerPairEntry) (acc : List WealthsChain),
      (∀ c ∈ acc, ∀ b ∈ c.balances, b.value = some "") →
      ∀ c ∈ l.foldl (fun wcs item =>
        if item.makerAddress != ma then wcs
        else
          addLeg (addLeg wcs item.makerAddress item.c1ID item.c1Name
              item.t1Address item.tName item.precision)
            item.makerAddress item.c2ID item.c2Name
            item.t2Address item.tName item.precision) acc,
        ∀ b ∈ c.balances, b.value = some "" by
    exact haux ml [] (by simp)
  intro l
  induction l with
  | nil => intro acc hacc; simpa using hacc
  | cons e rest ih =>
    intro acc hacc
    simp only [List.foldl_cons]
    apply ih
    split
    · exact hacc
    · exact addLeg_values _ _ _ _ _ _ _ (addLeg_values _ _ _ _ _ _ _ hacc)

/-- `canonFirstNative` does not change slot values. -/
theorem canonFirstNative_values (bs : List BalanceSlot)
    (h : ∀ b ∈ bs, b.value = some "") :
    ∀ b ∈ canonFirstNative bs, b.value = some "" := by
  induction bs with
  | nil => simp [canonFirstNative]
  | cons b₀ rest ih =>
    intro b hb
    unfold canonFirstNative at hb
    split at hb
    · rcases List.mem_cons.mp hb with hb | hb
      · subst hb
        exact h b₀ (List.mem_cons_self _ _)
      · exact h b (List.mem_cons_of_mem _ hb)
    · rcases List.mem_cons.mp hb with hb | hb
      · subst hb
        exact h b (List.mem_cons_self _ _)
      · exact ih (fun x hx => h x (List.mem_cons_of_mem _ hx)) b hb

/-- The post-pass keeps every slot value at `some ""`. -/
theorem postPassChain_values (ci : Nat → Option String) (c : WealthsChain)
    (h : ∀ b ∈ c.balances, b.value = some "") :
    ∀ b ∈ (postPassChain ci c).balances, b.value = some "" := by
  unfold postPassChain
  split
  · exact canonFirstNative_values c.balances h
  · intro b hb
    rcases List.mem_cons.mp hb with hb | hb
    · simp [hb]
    · exact h b hb

/-- A map relates pointwise to its source list. -/
theorem forall₂_map_self {α β : Type} (R : α → β → Prop) (f : α → β) (l : List α)
    (h : ∀ x ∈ l, R x (f x)) : List.Forall₂ R l (l.map f) := by
  induction l with
  | nil => simp
  | cons x rest ih =>
    exact List.Forall₂.cons (h x (List.mem_cons_self _ _))
      (ih (fun y hy => h y (List.mem_cons_of_mem _ hy)))

/-- Inverting a successful `getWealths` run. -/
theorem getWealths_ok_inv (env : Env) (ml : List MakerPairEntry) (ma : String)
    (wcs : List WealthsChain) (h : getWealths env ml ma = Except.ok wcs) :
    ∃ shaped, getWealthsChains env.chainIndex ml ma = Except.ok shaped ∧
      wcs = shaped.map (fetchChain env) := by
  unfold getWealths at h
  cases hs : getWealthsChains env.chainIndex ml ma with
  | error e => rw [hs] at h; exact absurd h (by simp [Except.bind])
  | ok shaped =>
    rw [hs] at h
    simp only [Except.bind, pure, Except.pure] at h
    exact ⟨shaped, rfl, ((Except.ok.injEq _ _).mp h).symm⟩

/-- A maker with no registry row produces no chains in the scan. -/
theorem scanMakerList_eq_nil (ml : List MakerPairEntry) (ma : String) :
    (∀ e ∈ ml, e.makerAddress ≠ ma) → scanMakerList ml ma = [] := by
  unfold scanMakerList
  induction ml with
  | nil => intro _; rfl
  | cons e rest ih =>
    intro h
    simp only [List.foldl_cons]
    rw [if_pos (bne_iff_ne.mpr (h e (List.mem_cons_self _ _)))]
    exact ih (fun x hx => h x (List.mem_cons_of_mem _ hx))

/-! ## Claim theorems -/

/-- C4: both `getWealthsChains` and `getWealths` reject an empty maker
address with the invalid-arguments `ServiceError`, for every registry and
every adapter environment (so before any registry read or network call);
and for every nonempty maker address absent from the registry,
`getWealthsChains` returns the empty sequence. -/
theorem C4_empty_address_and_unknown_maker (env : Env) (ci : Nat → Option String)
    (ml : List MakerPairEntry) (ma : String) :
    getWealthsChains ci ml "" = Except.error { message := "Sorry, params makerAddress miss", code := ServiceErrorCode.argumentsInvalid } ∧
    getWealths env ml "" = Except.error { message := "Sorry, params makerAddress miss", code := ServiceErrorCode.argumentsInvalid } ∧
    (ma ≠ "" → (∀ e ∈ ml, e.makerAddress ≠ ma) → getWealthsChains ci ml ma = Except.ok []) := by
  refine ⟨rfl, rfl, fun hma hno => ?_⟩
  unfold getWealthsChains
  rw [if_neg (by simpa using hma), scanMakerList_eq_nil ml ma hno]
  rfl

/-- C4 witness: a concrete registry with one row for maker `M` and the
absent maker `X`. -/
theorem C4_empty_address_and_unknown_maker_witness :
    getWealthsChains (fun _ => none) [{ makerAddress := "M", c1ID := 1, c1Name := "a", c2ID := 2, c2Name := "b", t1Address := "", t2Address := "0xT", tName := "T", precision := 6 }] "X" = Except.ok [] :=
  (C4_empty_address_and_unknown_maker envTrivial (fun _ => none) _ "X").2.2
    (by decide) (by decide)

/-- C2 counterexample: on the claimed registry input (with the shared token
name `ETH` and precision 18 the row type forces on both legs), the chain-137
request receives a synthesized native slot in front of the `0xTOKEN` slot,
so it has two slots, not one. -/
theorem C2_counterexample :
    ¬ ∀ wcs, getWealthsChains (fun n => if n == 137 then some "polygon" else none)
        [{ makerAddress := "0xABC", c1ID := 1, c1Name := "mainnet", c2ID := 137, c2Name := "matic", t1Address := "", t2Address := "0xTOKEN", tName := "ETH", precision := 18 }]
        "0xABC" = Except.ok wcs →
      ∀ c ∈ wcs, c.balances.length = 1 := by
  intro h
  have h2 := h _ rfl
  revert h2
  decide

/-- C2 amended: on that registry, `getWealthsChains "0xABC"` yields exactly
two requests in discovery order; chain 1's single slot has the empty token
address; chain 137 keeps its `0xTOKEN` slot and additionally gets the
synthesized native slot (`MATIC`, 18 decimals) unshifted to the front. -/
theorem C2_amended :
    getWealthsChains (fun n => if n == 137 then some "polygon" else none)
      [{ makerAddress := "0xABC", c1ID := 1, c1Name := "mainnet", c2ID := 137, c2Name := "matic", t1Address := "", t2Address := "0xTOKEN", tName := "ETH", precision := 18 }]
      "0xABC" =
    Except.ok [{ chainId := 1, chainName := "mainnet", makerAddress := "0xABC", balances := [{ tokenAddress := "", tokenName := "ETH", value := some "", decimals := 18 }] }, { chainId := 137, chainName := "matic", makerAddress := "0xABC", balances := [{ tokenAddress := "", tokenName := "MATIC", value := some "", decimals := 18 }, { tokenAddress := "0xTOKEN", tokenName := "ETH", value := some "", decimals := 18 }] }] := rfl

/-- C3: the native-asset post-pass of `getWealthsChains`: when some slot is
native-like (empty or sentinel token address), the first such slot has its
token address canonicalized to the empty string and nothing else changes;
otherwise a synthesized native slot (precision 18, display name `MATIC` for
the polygon chain family and `ETH` otherwise) is inserted at the front. -/
theorem C3_post_pass (ci : Nat → Option String) (c : WealthsChain) :
    (c.balances.any isNativeSlot = true →
      ∃ l₁ b l₂, c.balances = l₁ ++ b :: l₂ ∧ (∀ x ∈ l₁, isNativeSlot x = false) ∧
        isNativeSlot b = true ∧
        postPassChain ci c = { c with balances := l₁ ++ ({ b with tokenAddress := "" } :: l₂) }) ∧
    (c.balances.any isNativeSlot = false →
      postPassChain ci c = { c with balances := { tokenAddress := "", tokenName := if ci c.chainId == some "polygon" then "MATIC" else "ETH", value := some "", decimals := 18 } :: c.balances }) := by
  constructor
  · intro h
    obtain ⟨l₁, b, l₂, he, hl₁, hb, hc⟩ := canonFirstNative_split c.balances h
    exact ⟨l₁, b, l₂, he, hl₁, hb, by simp [postPassChain, h, hc]⟩
  · intro h
    simp [postPassChain, h]

/-- C3 witness: a chain whose only slot is a plain token gets the
synthesized `ETH` native slot in front. -/
theorem C3_post_pass_witness :
    postPassChain (fun _ => none) { chainId := 5, chainName := "n", makerAddress := "M", balances := [{ tokenAddress := "0xA", tokenName := "T", value := some "", decimals := 6 }] } =
    { chainId := 5, chainName := "n", makerAddress := "M", balances := [{ tokenAddress := "", tokenName := "ETH", value := some "", decimals := 18 }, { tokenAddress := "0xA", tokenName := "T", value := some "", decimals := 6 }] } :=
  (C3_post_pass (fun _ => none) _).2 (by decide)

/-- `saveWealths` is the flattened per-chain, per-slot row list. -/
theorem saveWealths_eq_join (wealths : List WealthsChain) :
    saveWealths wealths =
      (wealths.map (fun c => c.balances.map (fun b => ({ makerAddress := c.makerAddress, tokenAddress := b.tokenAddress, chainId := c.chainId, balance := b.value, decimals := b.decimals } : MakerWealth)))).flatten := by
  unfold saveWealths
  suffices haux : ∀ (l : List WealthsChain) (acc : List MakerWealth),
      l.foldl (fun acc item1 =>
        acc ++ item1.balances.map (fun item2 =>
          { makerAddress := item1.makerAddress, tokenAddress := item2.tokenAddress,
            chainId := item1.chainId, balance := item2.value,
            decimals := item2.decimals })) acc =
      acc ++ (l.map (fun c => c.balances.map (fun b => ({ makerAddress := c.makerAddress, tokenAddress := b.tokenAddress, chainId := c.chainId, balance := b.value, decimals := b.decimals } : MakerWealth)))).flatten by
    simpa using haux wealths []
  intro l
  induction l with
  | nil => intro acc; simp
  | cons c rest ih =>
    intro acc
    simp only [List.foldl_cons, List.map_cons, List.flatten_cons]
    rw [ih, List.append_assoc]

/-- C9: `saveWealths` issues one row-insert per slot, in the sequential
nested-loop order; with two requests of two slots each that is exactly four
inserts. -/
theorem C9_one_insert_per_slot (wealths : List WealthsChain) :
    saveWealths wealths =
      (wealths.map (fun c => c.balances.map (fun b => ({ makerAddress := c.makerAddress, tokenAddress := b.tokenAddress, chainId := c.chainId, balance := b.value, decimals := b.decimals } : MakerWealth)))).flatten ∧
    (saveWealths wealths).length = (wealths.map (fun c => c.balances.length)).sum ∧
    (wealths.length = 2 → (∀ c ∈ wealths, c.balances.length = 2) →
      (saveWealths wealths).length = 4) := by
  have hjoin := saveWealths_eq_join wealths
  have hlen : (saveWealths wealths).length = (wealths.map (fun c => c.balances.length)).sum := by
    rw [hjoin, List.length_flatten, List.map_map]
    simp [Function.comp_def]
  refine ⟨hjoin, hlen, fun h2 hs => ?_⟩
  obtain ⟨a, b, rfl⟩ := List.length_eq_two.mp h2
  have ha := hs a (by simp)
  have hb := hs b (by simp)
  rw [hlen]
  simp [ha, hb]

/-- C9 witness: two requests with two slots each produce four rows. -/
theorem C9_one_insert_per_slot_witness :
    (saveWealths [{ chainId := 1, chainName := "a", makerAddress := "M", balances := [{ tokenAddress := "", tokenName := "E", value := some "1", decimals := 18 }, { tokenAddress := "0xA", tokenName := "U", value := some "2", decimals := 6 }] }, { chainId := 2, chainName := "b", makerAddress := "M", balances := [{ tokenAddress := "", tokenName := "E", value := none, decimals := 18 }, { tokenAddress := "0xB", tokenName := "U", value := some "", decimals := 6 }] }]).length = 4 :=
  (C9_one_insert_per_slot _).2.2 (by decide) (by decide)

/-- Slots that are not native-like contribute nothing to the empty-token
count. -/
theorem countP_empty_eq_zero_of_no_native (bs : List BalanceSlot)
    (h : ∀ b ∈ bs, isNativeSlot b = false) :
    bs.countP (fun b => b.tokenAddress == "") = 0 := by
  refine List.countP_eq_zero.mpr (fun b hb => ?_)
  simp [tokenAddress_ne_empty_of_not_native b (h b hb)]

/-- The post-pass always leaves at least one empty-token slot. -/
theorem postPassChain_countP_ge_one (ci : Nat → Option String) (c : WealthsChain) :
    1 ≤ (postPassChain ci c).balances.countP (fun b => b.tokenAddress == "") := by
  unfold postPassChain
  split
  · rename_i hany
    obtain ⟨l₁, b, l₂, -, -, -, hc⟩ := canonFirstNative_split c.balances hany
    simp only [hc, List.countP_append, List.countP_cons]
    simp
    omega
  · simp [List.countP_cons]

/-- The post-pass leaves exactly one empty-token slot when at most one slot
of the chain was native-like. -/
theorem postPassChain_countP_eq_one (ci : Nat → Option String) (c : WealthsChain)
    (h1 : c.balances.countP isNativeSlot ≤ 1) :
    (postPassChain ci c).balances.countP (fun b => b.tokenAddress == "") = 1 := by
  unfold postPassChain
  split
  · rename_i hany
    obtain ⟨l₁, b, l₂, he, hl₁, hb, hc⟩ := canonFirstNative_split c.balances hany
    have hcount : c.balances.countP isNativeSlot =
        l₁.countP isNativeSlot + (1 + l₂.countP isNativeSlot) := by
      rw [he]
      simp [List.countP_append, List.countP_cons, hb]
      omega
    have hl₁z : l₁.countP isNativeSlot = 0 :=
      List.countP_eq_zero.mpr (fun x hx => by simp [hl₁ x hx])
    have hl₂z : l₂.countP isNativeSlot = 0 := by omega
    have hl₂n : ∀ x ∈ l₂, isNativeSlot x = false := by
      intro x hx
      have := List.countP_eq_zero.mp hl₂z x hx
      simpa using this
    rw [hc]
    simp [List.countP_append, List.countP_cons,
      countP_empty_eq_zero_of_no_native l₁ hl₁, countP_empty_eq_zero_of_no_native l₂ hl₂n]
  · rename_i hany
    have hnone : ∀ b ∈ c.balances, isNativeSlot b = false := by
      intro b hb
      have := List.any_eq_false.mp (Bool.of_not_eq_true hany) b hb
      simpa using this
    simp [List.countP_cons, countP_empty_eq_zero_of_no_native c.balances hnone]

/-- C1 amended: every produced ChainBalanceRequest has at least one slot
with an empty token address; moreover the output pairs positionally with
the registry scan, each request is the post-pass of its own scan chain, and
each request has exactly one empty-token slot whenever its own scan chain
held at most one native-like slot (empty or zero/sentinel token address).
A chain given a sentinel-address slot ordered before an explicit
empty-address slot ends up with two empty slots (see the counterexample). -/
theorem C1_native_slot_uniqueness (ci : Nat → Option String) (ml : List MakerPairEntry)
    (ma : String) (wcs : List WealthsChain)
    (hok : getWealthsChains ci ml ma = Except.ok wcs) :
    (∀ c ∈ wcs, 1 ≤ c.balances.countP (fun b => b.tokenAddress == "")) ∧
    List.Forall₂ (fun c₀ c =>
      c = postPassChain ci c₀ ∧
      (c₀.balances.countP isNativeSlot ≤ 1 →
        c.balances.countP (fun b => b.tokenAddress == "") = 1))
      (scanMakerList ml ma) wcs := by
  obtain ⟨-, hw⟩ := getWealthsChains_ok_inv ci ml ma wcs hok
  subst hw
  constructor
  · intro c hc
    obtain ⟨c₀, -, rfl⟩ := List.mem_map.mp hc
    exact postPassChain_countP_ge_one ci c₀
  · apply forall₂_map_self
    intro c₀ _
    exact ⟨rfl, fun h1 => postPassChain_countP_eq_one ci c₀ h1⟩

/-- C1 counterexample: one registry row whose two legs are both chain 1,
with the sentinel token address `0x00` on the first leg and the empty token
address on the second, yields a request with two empty-token slots. -/
theorem C1_counterexample :
    ¬ ∀ wcs, getWealthsChains (fun _ => none)
        [{ makerAddress := "M", c1ID := 1, c1Name := "a", c2ID := 1, c2Name := "a", t1Address := "0x00", t2Address := "", tName := "T", precision := 6 }]
        "M" = Except.ok wcs →
      ∀ c ∈ wcs, c.balances.countP (fun b => b.tokenAddress == "") = 1 := by
  intro h
  have h2 := h _ rfl
  revert h2
  decide

/-- C1 witness: with chain 1 holding both a sentinel-address slot and an
empty-address slot (two native-like slots) and chain 2 holding a single
empty-address slot, the per-chain conclusion still gives chain 2 exactly
one empty-token slot. -/
theorem C1_native_slot_uniqueness_witness :
    ({ chainId := 2, chainName := "b", makerAddress := "M", balances := [{ tokenAddress := "", tokenName := "T", value := some "", decimals := 6 }] } : WealthsChain).balances.countP (fun b => b.tokenAddress == "") = 1 := by
  have h := (C1_native_slot_uniqueness (fun _ => none)
      [{ makerAddress := "M", c1ID := 1, c1Name := "a", c2ID := 1, c2Name := "a", t1Address := "0x00", t2Address := "", tName := "T", precision := 6 }, { makerAddress := "M", c1ID := 2, c1Name := "b", c2ID := 2, c2Name := "b", t1Address := "", t2Address := "", tName := "T", precision := 6 }]
      "M" _ rfl).2
  have h2 : List.Forall₂ _
      [({ chainId := 1, chainName := "a", makerAddress := "M", balances := [{ tokenAddress := "0x00", tokenName := "T", value := some "", decimals := 6 }, { tokenAddress := "", tokenName := "T", value := some "", decimals := 6 }] } : WealthsChain), { chainId := 2, chainName := "b", makerAddress := "M", balances := [{ tokenAddress := "", tokenName := "T", value := some "", decimals := 6 }] }]
      [({ chainId := 1, chainName := "a", makerAddress := "M", balances := [{ tokenAddress := "", tokenName := "T", value := some "", decimals := 6 }, { tokenAddress := "", tokenName := "T", value := some "", decimals := 6 }] } : WealthsChain), { chainId := 2, chainName := "b", makerAddress := "M", balances := [{ tokenAddress := "", tokenName := "T", value := some "", decimals := 6 }] }] := h
  cases h2 with
  | cons h3 h4 =>
    cases h4 with
    | cons h5 h6 =>
      exact h5.2 (by decide)

/-- C7 counterexample: request shaping alone — before any fetch — already
sets every slot value to `some ""`, so a slot value is not `undefined`
until fetched. -/
theorem C7_counterexample :
    ¬ ∀ wcs, getWealthsChains (fun _ => none)
        [{ makerAddress := "M", c1ID := 1, c1Name := "a", c2ID := 2, c2Name := "b", t1Address := "", t2Address := "0xT", tName := "T", precision := 6 }]
        "M" = Except.ok wcs →
      ∀ c ∈ wcs, ∀ b ∈ c.balances, b.value = none := by
  intro h
  have h2 := h _ rfl
  revert h2
  decide

/-- C7 amended: a slot's value is the empty string from shaping until the
fetch, and after `getWealths` it is either `none` (the fetch produced no
value, overwriting the initial empty string), the empty string, or the
normalized quotient of the raw value by `10 ^ decimals`. -/
theorem C7_value_lifecycle (env : Env) (ci : Nat → Option String)
    (ml : List MakerPairEntry) (ma : String) :
    (∀ wcs, getWealthsChains ci ml ma = Except.ok wcs →
      ∀ c ∈ wcs, ∀ b ∈ c.balances, b.value = some "") ∧
    (∀ wcs, getWealths env ml ma = Except.ok wcs →
      ∀ c ∈ wcs, ∀ b ∈ c.balances,
        b.value = none ∨ b.value = some "" ∨
          ∃ raw, raw ≠ "" ∧ b.value = some (bigDiv raw b.decimals)) := by
  constructor
  · intro wcs hok c hc b hb
    obtain ⟨-, hw⟩ := getWealthsChains_ok_inv ci ml ma wcs hok
    subst hw
    obtain ⟨c₀, hc₀, rfl⟩ := List.mem_map.mp hc
    exact postPassChain_values ci c₀ (scanMakerList_values ml ma c₀ hc₀) b hb
  · intro wcs hok c hc b hb
    obtain ⟨shaped, -, hw⟩ := getWealths_ok_inv env ml ma wcs hok
    subst hw
    obtain ⟨c₀, hc₀, rfl⟩ := List.mem_map.mp hc
    have hb' : b ∈ List.map (fetchSlot env c₀) c₀.balances := hb
    obtain ⟨b₀, hb₀, rfl⟩ := List.mem_map.mp hb'
    cases hraw : getTokenBalance env c₀.makerAddress c₀.chainId c₀.chainName b₀.tokenAddress b₀.tokenName with
    | none =>
      left
      simp [fetchSlot, normalizeValue, hraw]
    | some v =>
      by_cases hv : v = ""
      · right; left
        simp [fetchSlot, normalizeValue, hraw, hv]
      · right; right
        exact ⟨v, hv, by simp [fetchSlot, normalizeValue, hraw, hv]⟩

/-- C7 witness: the single shaped slot of a one-row registry holds
`some ""`. -/
theorem C7_value_lifecycle_witness :
    ({ tokenAddress := "", tokenName := "T", value := some "", decimals := 6 } : BalanceSlot).value = some "" :=
  (C7_value_lifecycle envTrivial (fun _ => none)
      [{ makerAddress := "M", c1ID := 1, c1Name := "a", c2ID := 1, c2Name := "a", t1Address := "", t2Address := "", tName := "T", precision := 6 }]
      "M").1 _ rfl
    { chainId := 1, chainName := "a", makerAddress := "M", balances := [{ tokenAddress := "", tokenName := "T", value := some "", decimals := 6 }] }
    (by decide) _ (by decide)

/-- C8: generic EVM (default-family) routing of `getTokenBalance`: with no
configured endpoint the slot resolves to no value whatever the node oracles
would answer; with an endpoint, an empty or sentinel token address takes
the native `eth.getBalance` call, and any other token address takes the
`getTokenBalances` lookup whose query set is exactly `[tokenAddress]`. -/
theorem C8_default_family_routing (env : Env) (ma : String) (cid : Nat) (cn ta tn : String)
    (hdefault : env.chainIndex cid ∉ [some "zksync", some "loopring", some "starknet", some "immutablex", some "metis", some "dydx"]) :
    (env.httpEndPoint cn = none → getTokenBalance env ma cid cn ta tn = none) ∧
    (∀ url, env.httpEndPoint cn = some url → (ta = "" ∨ isEthTokenAddress ta = true) →
      getTokenBalance env ma cid cn ta tn =
        (match env.ethGetBalance url ma with
         | Except.ok v => some v
         | Except.error _ => none)) ∧
    (∀ url, env.httpEndPoint cn = some url → ta ≠ "" → isEthTokenAddress ta = false →
      getTokenBalance env ma cid cn ta tn =
        (match env.getTokenBalances url ma [ta] with
         | Except.ok items => scanTokenBalances items
         | Except.error _ => none)) := by
  simp only [List.mem_cons, List.not_mem_nil, or_false, not_or] at hdefault
  obtain ⟨h1, h2, h3, h4, h5, h6⟩ := hdefault
  refine ⟨?_, ?_, ?_⟩
  · intro hnone
    simp [getTokenBalance, getTokenBalanceBody, beq_iff_eq, h1, h2, h3, h4, h5, h6, hnone]
  · intro url hurl hta
    have hcond : (ta == "" || isEthTokenAddress ta) = true := by
      rcases hta with hta | hta <;> simp [hta]
    cases hg : env.ethGetBalance url ma with
    | ok v =>
      simp [getTokenBalance, getTokenBalanceBody, beq_iff_eq, h1, h2, h3, h4, h5, h6, hurl, hcond, hg]
    | error e =>
      simp [getTokenBalance, getTokenBalanceBody, beq_iff_eq, h1, h2, h3, h4, h5, h6, hurl, hcond, hg]
  · intro url hurl hta hsent
    have hcond : (ta == "" || isEthTokenAddress ta) = false := by
      simp [hta, hsent]
    cases hg : env.getTokenBalances url ma [ta] with
    | ok items =>
      simp [getTokenBalance, getTokenBalanceBody, beq_iff_eq, h1, h2, h3, h4, h5, h6, hurl, hcond, hg]
    | error e =>
      simp [getTokenBalance, getTokenBalanceBody, beq_iff_eq, h1, h2, h3, h4, h5, h6, hurl, hcond, hg]

/-- C8 witness: the trivial environment has no endpoint for chain name `c`,
so the slot resolves to no value. -/
theorem C8_default_family_routing_witness :
    getTokenBalance envTrivial "M" 1 "c" "" "" = none :=
  (C8_default_family_routing envTrivial "M" 1 "c" "" "" (by decide)).1 rfl


theorem dropWhile_length_le (p : Nat → Bool) (l : List Nat) :
    (l.dropWhile p).length ≤ l.length := by
  induction l with
  | nil => simp [List.dropWhile]
  | cons x t ih =>
    rw [List.dropWhile_cons]
    split
    · exact Nat.le_succ_of_le ih
    · simp

theorem ofDigitsLSB_reverse_fracDigitsOf (d : Nat) : ∀ m : Nat,
    ofDigitsLSB ((fracDigitsOf d m).reverse) = m % 10 ^ d := by
  induction d with
  | zero => intro m; simp [fracDigitsOf, ofDigitsLSB, Nat.mod_one]
  | succ d ih =>
    intro m
    have hrev : ((fracDigitsOf d (m / 10)) ++ [m % 10]).reverse =
        m % 10 :: (fracDigitsOf d (m / 10)).reverse := by simp
    show ofDigitsLSB ((fracDigitsOf d (m / 10) ++ [m % 10]).reverse) = m % 10 ^ (d + 1)
    rw [hrev]
    show m % 10 + 10 * ofDigitsLSB ((fracDigitsOf d (m / 10)).reverse) = m % 10 ^ (d + 1)
    rw [ih (m / 10), pow_succ, Nat.mul_comm (10 ^ d) 10, Nat.mod_mul]

theorem fracDigitsOf_length (d : Nat) : ∀ m : Nat, (fracDigitsOf d m).length = d := by
  induction d with
  | zero => intro m; rfl
  | succ d ih => intro m; show ((fracDigitsOf d (m / 10)) ++ [m % 10]).length = d + 1; simp [ih]

theorem ofDigitsLSB_dropWhile_zero (r : List Nat) :
    ofDigitsLSB r =
      10 ^ (r.length - (r.dropWhile (fun x => x == 0)).length) *
        ofDigitsLSB (r.dropWhile (fun x => x == 0)) := by
  induction r with
  | nil => simp [ofDigitsLSB, List.dropWhile]
  | cons x t ih =>
    rw [List.dropWhile_cons]
    by_cases hx : x = 0
    · subst hx
      simp only [beq_self_eq_true, if_true]
      have hle : (t.dropWhile (fun x => x == 0)).length ≤ t.length :=
        dropWhile_length_le _ t
      have hexp : (0 :: t : List Nat).length - (t.dropWhile (fun x => x == 0)).length =
          (t.length - (t.dropWhile (fun x => x == 0)).length) + 1 := by
        simp only [List.length_cons]
        omega
      rw [hexp, pow_succ]
      show 0 + 10 * ofDigitsLSB t = _
      rw [ih]
      ring
    · have hxb : (x == 0) = false := by simpa using hx
      rw [hxb]
      simp

theorem renderScaled_exact (n d : Nat) :
    ((n / 10 ^ d : Nat) : ℚ) +
      (ofDigitsLSB ((fracPartDigits n d).reverse) : ℚ) / (10 : ℚ) ^ (fracPartDigits n d).length =
    (n : ℚ) / (10 : ℚ) ^ d := by
  have hrr : (fracPartDigits n d).reverse =
      ((fracDigitsOf d (n % 10 ^ d)).reverse.dropWhile (fun x => x == 0)) := by
    simp [fracPartDigits, stripTrailingZeros]
  have hlen : (fracPartDigits n d).length =
      ((fracDigitsOf d (n % 10 ^ d)).reverse.dropWhile (fun x => x == 0)).length := by
    simp [fracPartDigits, stripTrailingZeros]
  set r := (fracDigitsOf d (n % 10 ^ d)).reverse with hr
  set dw := r.dropWhile (fun x => x == 0) with hdw
  have hrlen : r.length = d := by rw [hr]; simp [fracDigitsOf_length]
  have hk : dw.length ≤ d := by rw [← hrlen]; exact dropWhile_length_le _ r
  have hval : ofDigitsLSB r = n % 10 ^ d := by
    rw [hr, ofDigitsLSB_reverse_fracDigitsOf d (n % 10 ^ d)]
    exact Nat.mod_eq_of_lt (Nat.mod_lt n (pow_pos (by norm_num) d))
  have hsplit : n % 10 ^ d = 10 ^ (d - dw.length) * ofDigitsLSB dw := by
    rw [← hval, ofDigitsLSB_dropWhile_zero r, hrlen]
  rw [hrr, hlen]
  have hnd : (10 ^ d) * (n / 10 ^ d) + n % 10 ^ d = n := Nat.div_add_mod n (10 ^ d)
  have hcast : (n : ℚ) = (10 : ℚ) ^ d * ((n / 10 ^ d : Nat) : ℚ) + ((n % 10 ^ d : Nat) : ℚ) := by
    exact_mod_cast congrArg (fun x : Nat => (x : ℚ)) hnd.symm
  have hmq : ((n % 10 ^ d : Nat) : ℚ) = (10 : ℚ) ^ (d - dw.length) * (ofDigitsLSB dw : ℚ) := by
    exact_mod_cast congrArg (fun x : Nat => (x : ℚ)) hsplit
  have hdk : (10 : ℚ) ^ d = (10 : ℚ) ^ (d - dw.length) * (10 : ℚ) ^ dw.length := by
    rw [← pow_add]
    congr 1
    omega
  have h10 : (10 : ℚ) ^ dw.length ≠ 0 := pow_ne_zero _ (by norm_num)
  have h10' : (10 : ℚ) ^ (d - dw.length) ≠ 0 := pow_ne_zero _ (by norm_num)
  rw [hcast, hmq, hdk]
  field_simp
  ring


/-- C6: the stored value is the raw value divided by `10 ^ precision`,
exactly: for every raw integer `n` and precision `d` the integer part and
fraction digits produced by the modelled BigNumber division represent
`n / 10 ^ d` with no rounding; in particular raw `"1500000000000000000"`
at precision 18 stores `"1.5"`, raw `"0"` at precision 6 stores `"0"`, and
a `getWealths` run whose adapter answers `"1500000000000000000"` for an
18-decimals slot stores `"1.5"`. -/
theorem C6_exact_normalization :
    (∀ n d : Nat,
      ((n / 10 ^ d : Nat) : ℚ) +
        (ofDigitsLSB ((fracPartDigits n d).reverse) : ℚ) / (10 : ℚ) ^ (fracPartDigits n d).length =
      (n : ℚ) / (10 : ℚ) ^ d) ∧
    normalizeValue (some "1500000000000000000") 18 = some "1.5" ∧
    normalizeValue (some "0") 6 = some "0" ∧
    getWealths { envTrivial with httpEndPoint := fun _ => some "u", ethGetBalance := fun _ _ => Except.ok "1500000000000000000" }
      [{ makerAddress := "M", c1ID := 1, c1Name := "a", c2ID := 1, c2Name := "a", t1Address := "", t2Address := "", tName := "T", precision := 18 }] "M" =
    Except.ok [{ chainId := 1, chainName := "a", makerAddress := "M", balances := [{ tokenAddress := "", tokenName := "T", value := some "1.5", decimals := 18 }] }] :=
  ⟨renderScaled_exact, by decide, by decide, rfl⟩

/-- Every slot of a successfully shaped request list is initialized to
`some ""`. -/
theorem getWealthsChains_values (ci : Nat → Option String) (ml : List MakerPairEntry)
    (ma : String) (wcs : List WealthsChain)
    (h : getWealthsChains ci ml ma = Except.ok wcs) :
    ∀ c ∈ wcs, ∀ b ∈ c.balances, b.value = some "" := by
  obtain ⟨-, hw⟩ := getWealthsChains_ok_inv ci ml ma wcs h
  subst hw
  intro c hc b hb
  obtain ⟨c₀, hc₀, rfl⟩ := List.mem_map.mp hc
  exact postPassChain_values ci c₀ (scanMakerList_values ml ma c₀ hc₀) b hb

/-- Two maps over one list relate pointwise. -/
theorem forall₂_map_map {α β γ : Type} (R : β → γ → Prop) (f : α → β) (g : α → γ)
    (l : List α) (h : ∀ x ∈ l, R (f x) (g x)) : List.Forall₂ R (l.map f) (l.map g) := by
  induction l with
  | nil => simp
  | cons x t ih =>
    exact List.Forall₂.cons (h x (List.mem_cons_self _ _))
      (ih fun y hy => h y (List.mem_cons_of_mem _ hy))

/-- C10: `getWealths` keeps request and slot identities, and per slot: a
fetch producing nothing overwrites the initialized `some ""` with `none`;
a raw empty string is stored unchanged; a truthy raw string is stored as
its BigNumber quotient by `10 ^ decimals`. -/
theorem C10_truthiness_normalization (env : Env) (ml : List MakerPairEntry) (ma : String)
    (shaped fetched : List WealthsChain)
    (hshape : getWealthsChains env.chainIndex ml ma = Except.ok shaped)
    (hfetch : getWealths env ml ma = Except.ok fetched) :
    List.Forall₂ (fun c₀ c =>
      c.chainId = c₀.chainId ∧ c.chainName = c₀.chainName ∧ c.makerAddress = c₀.makerAddress ∧
      List.Forall₂ (fun b₀ b =>
        b.tokenAddress = b₀.tokenAddress ∧ b.tokenName = b₀.tokenName ∧ b.decimals = b₀.decimals ∧
        b₀.value = some "" ∧
        (match getTokenBalance env c₀.makerAddress c₀.chainId c₀.chainName b₀.tokenAddress b₀.tokenName with
         | none => b.value = none
         | some v => (v = "" → b.value = some "") ∧ (v ≠ "" → b.value = some (bigDiv v b₀.decimals))))
        c₀.balances c.balances) shaped fetched := by
  obtain ⟨shaped', hs', hw⟩ := getWealths_ok_inv env ml ma fetched hfetch
  rw [hshape] at hs'
  have hse : shaped = shaped' := Except.ok.inj hs'
  subst hse
  subst hw
  have hvals := getWealthsChains_values env.chainIndex ml ma shaped hshape
  apply forall₂_map_self
  intro c₀ hc₀
  refine ⟨rfl, rfl, rfl, ?_⟩
  show List.Forall₂ _ c₀.balances (c₀.balances.map (fetchSlot env c₀))
  apply forall₂_map_self
  intro b₀ hb₀
  refine ⟨rfl, rfl, rfl, hvals c₀ hc₀ b₀ hb₀, ?_⟩
  cases hraw : getTokenBalance env c₀.makerAddress c₀.chainId c₀.chainName b₀.tokenAddress b₀.tokenName with
  | none => simp [fetchSlot, normalizeValue, hraw]
  | some v =>
    constructor
    · intro hv
      simp [fetchSlot, normalizeValue, hraw, hv]
    · intro hv
      simp [fetchSlot, normalizeValue, hraw, hv]

/-- C10 witness: a one-slot registry under the trivial environment — the
fetch yields nothing and the initialized `some ""` becomes `none`. -/
theorem C10_truthiness_normalization_witness :
    List.Forall₂ (fun (c₀ c : WealthsChain) =>
      c.chainId = c₀.chainId ∧ c.chainName = c₀.chainName ∧ c.makerAddress = c₀.makerAddress ∧
      List.Forall₂ (fun (b₀ b : BalanceSlot) =>
        b.tokenAddress = b₀.tokenAddress ∧ b.tokenName = b₀.tokenName ∧ b.decimals = b₀.decimals ∧
        b₀.value = some "" ∧
        (match getTokenBalance envTrivial c₀.makerAddress c₀.chainId c₀.chainName b₀.tokenAddress b₀.tokenName with
         | none => b.value = none
         | some v => (v = "" → b.value = some "") ∧ (v ≠ "" → b.value = some (bigDiv v b₀.decimals))))
        c₀.balances c.balances)
      [{ chainId := 1, chainName := "a", makerAddress := "M", balances := [{ tokenAddress := "", tokenName := "T", value := some "", decimals := 6 }] }]
      [{ chainId := 1, chainName := "a", makerAddress := "M", balances := [{ tokenAddress := "", tokenName := "T", value := none, decimals := 6 }] }] :=
  C10_truthiness_normalization envTrivial
    [{ makerAddress := "M", c1ID := 1, c1Name := "a", c2ID := 1, c2Name := "a", t1Address := "", t2Address := "", tName := "T", precision := 6 }]
    "M" _ _ rfl rfl

/-- C5: an adapter fault for one (chain, token) key never surfaces an error
from `getWealths`; the faulted slot alone resolves to no value, and every
sibling slot resolves exactly as it would in a fault-free environment that
agrees on all other keys. -/
theorem C5_adapter_fault_isolation (env₁ env₂ : Env) (ml : List MakerPairEntry)
    (ma : String) (cid : Nat) (ta : String)
    (hci : env₁.chainIndex = env₂.chainIndex)
    (hagree : ∀ a c n t s, c ≠ cid ∨ t ≠ ta →
      getTokenBalanceBody env₁ a c n t s = getTokenBalanceBody env₂ a c n t s)
    (hfault : ∀ a n s, ∃ msg, getTokenBalanceBody env₁ a cid n ta s = Except.error msg)
    (wcs₁ wcs₂ : List WealthsChain)
    (h₁ : getWealths env₁ ml ma = Except.ok wcs₁)
    (h₂ : getWealths env₂ ml ma = Except.ok wcs₂) :
    (∀ e : ServiceError, getWealths env₁ ml ma ≠ Except.error e) ∧
    List.Forall₂ (fun c₁ c₂ =>
      c₁.chainId = c₂.chainId ∧ c₁.chainName = c₂.chainName ∧ c₁.makerAddress = c₂.makerAddress ∧
      List.Forall₂ (fun b₁ b₂ =>
        b₁.tokenAddress = b₂.tokenAddress ∧ b₁.tokenName = b₂.tokenName ∧ b₁.decimals = b₂.decimals ∧
        (c₁.chainId = cid ∧ b₁.tokenAddress = ta → b₁.value = none) ∧
        (¬(c₁.chainId = cid ∧ b₁.tokenAddress = ta) → b₁.value = b₂.value))
        c₁.balances c₂.balances) wcs₁ wcs₂ := by
  constructor
  · intro e he
    rw [h₁] at he
    cases he
  obtain ⟨s₁, hs₁, hw₁⟩ := getWealths_ok_inv env₁ ml ma wcs₁ h₁
  obtain ⟨s₂, hs₂, hw₂⟩ := getWealths_ok_inv env₂ ml ma wcs₂ h₂
  rw [hci, hs₂] at hs₁
  have hse : s₂ = s₁ := Except.ok.inj hs₁
  subst hse
  subst hw₁
  subst hw₂
  apply forall₂_map_map
  intro c hc
  refine ⟨rfl, rfl, rfl, ?_⟩
  show List.Forall₂ _ (c.balances.map (fetchSlot env₁ c)) (c.balances.map (fetchSlot env₂ c))
  apply forall₂_map_map
  intro b hb
  refine ⟨rfl, rfl, rfl, ?_, ?_⟩
  · rintro ⟨hcid, hta⟩
    have hcid' : c.chainId = cid := hcid
    have hta' : b.tokenAddress = ta := hta
    obtain ⟨msg, hm⟩ := hfault c.makerAddress c.chainName b.tokenName
    show (fetchSlot env₁ c b).value = none
    simp [fetchSlot, getTokenBalance, hcid', hta', hm, normalizeValue]
  · intro hn
    have hn' : c.chainId ≠ cid ∨ b.tokenAddress ≠ ta := by
      rcases not_and_or.mp hn with h | h
      · exact Or.inl h
      · exact Or.inr h
    have hb2 := hagree c.makerAddress c.chainId c.chainName b.tokenAddress b.tokenName hn'
    show (fetchSlot env₁ c b).value = (fetchSlot env₂ c b).value
    simp [fetchSlot, getTokenBalance, hb2]

/-- C5 witness: the starknet adapter faults on (chain 2, `0xT`); that slot
ends with no value while the native slot of chain 2 and the chain 1 slot
match the fault-free run. -/
theorem C5_adapter_fault_isolation_witness :
    List.Forall₂ (fun (c₁ c₂ : WealthsChain) =>
      c₁.chainId = c₂.chainId ∧ c₁.chainName = c₂.chainName ∧ c₁.makerAddress = c₂.makerAddress ∧
      List.Forall₂ (fun (b₁ b₂ : BalanceSlot) =>
        b₁.tokenAddress = b₂.tokenAddress ∧ b₁.tokenName = b₂.tokenName ∧ b₁.decimals = b₂.decimals ∧
        (c₁.chainId = 2 ∧ b₁.tokenAddress = "0xT" → b₁.value = none) ∧
        (¬(c₁.chainId = 2 ∧ b₁.tokenAddress = "0xT") → b₁.value = b₂.value))
        c₁.balances c₂.balances)
      [{ chainId := 1, chainName := "c1", makerAddress := "M", balances := [{ tokenAddress := "", tokenName := "T", value := none, decimals := 6 }] }, { chainId := 2, chainName := "c2", makerAddress := "M", balances := [{ tokenAddress := "", tokenName := "ETH", value := some "0.000000000000000001", decimals := 18 }, { tokenAddress := "0xT", tokenName := "T", value := none, decimals := 6 }] }]
      [{ chainId := 1, chainName := "c1", makerAddress := "M", balances := [{ tokenAddress := "", tokenName := "T", value := none, decimals := 6 }] }, { chainId := 2, chainName := "c2", makerAddress := "M", balances := [{ tokenAddress := "", tokenName := "ETH", value := some "0.000000000000000001", decimals := 18 }, { tokenAddress := "0xT", tokenName := "T", value := some "0.000001", decimals := 6 }] }] :=
  (C5_adapter_fault_isolation envStarkFault envStarkOk
    [{ makerAddress := "M", c1ID := 1, c1Name := "c1", c2ID := 2, c2Name := "c2", t1Address := "", t2Address := "0xT", tName := "T", precision := 6 }]
    "M" 2 "0xT" rfl
    (by
      intro a c n t s h
      by_cases hc : c = 2
      · subst hc
        have ht : t ≠ "0xT" := by
          rcases h with h | h
          · exact absurd rfl h
          · exact h
        have htb : (t == "0xT") = false := by simpa using ht
        simp [getTokenBalanceBody, envStarkFault, envStarkOk, envTrivial, htb, ht]
      · have hcb : (c == 2) = false := by simpa using hc
        simp [getTokenBalanceBody, envStarkFault, envStarkOk, envTrivial, hcb, hc])
    (fun a n s => ⟨"boom", rfl⟩) _ _ rfl rfl).2

end MakerWealthSpec
